import Mathlib

/-!
Shallow embedding of `scripts/update-readme.js` (the README aggregator).

Strings are modelled as `List Char`, matching JavaScript's view of a string
as a sequence of code units (all characters appearing in this script are in
the basic multilingual plane, so one `Char` per code unit is exact).

The two regular expressions of the script are hand-compiled into
backtracking-faithful matchers (`tryLink`, `trySection`), and the
`exec`-in-a-loop idiom with the `g` flag is modelled by a leftmost scan that
resumes after the end of each match (`scanLinks`, `scanSections`).
-/

set_option maxRecDepth 100000

namespace UpdateReadme

abbrev Str := List Char

/-- JavaScript `\s` character class (ECMA-262 WhiteSpace plus LineTerminator). -/
def isJsSpace (c : Char) : Bool :=
  c == ' ' || c == '\t' || c == '\n' || c == '\r' ||
  c.val == 11 || c.val == 12 ||
  c.val == 160 || c.val == 0x1680 ||
  (0x2000 ≤ c.val && c.val ≤ 0x200a) ||
  c.val == 0x2028 || c.val == 0x2029 || c.val == 0x202f ||
  c.val == 0x205f || c.val == 0x3000 || c.val == 0xfeff

/-- JavaScript `String.prototype.trim`: strips `\s` characters from both ends. -/
def jsTrim (s : Str) : Str :=
  ((s.dropWhile isJsSpace).reverse.dropWhile isJsSpace).reverse

/-- First index `≥ k` (reported in absolute coordinates, the accumulator `k`
is the index of the head of `hay`) at which `needle` occurs in `hay`. -/
def findFrom (needle : Str) : Str → Nat → Option Nat
  | hay, k =>
    if needle.isPrefixOf hay then some k
    else
      match hay with
      | [] => none
      | _ :: t => findFrom needle t (k + 1)

/-- JavaScript `String.prototype.indexOf`: index of the first occurrence,
`-1` when there is none. -/
def jsIndexOf (hay needle : Str) : Int :=
  match findFrom needle hay 0 with
  | some i => (i : Int)
  | none => -1

/-- JavaScript `String.prototype.includes`. -/
def hasSubstr (hay needle : Str) : Bool :=
  (findFrom needle hay 0).isSome

/-- JavaScript `s.slice(0, e)` (for the end index an `Int`, as in JS, where a
negative index counts from the end). -/
def jsSlice0 (s : Str) (e : Int) : Str :=
  if e < 0 then s.take ((s.length : Int) + e).toNat else s.take e.toNat

/-- The marker string `"<!-- FOLDER LINKS -->"` of the script. -/
def placeholder : Str := "<!-- FOLDER LINKS -->".data

/-- The link fragment built by the script (template literal at line 42 for
fresh links, and the re-rendering at line 23 for collected links):
`<a href="./FOLDERNAME/" style="font-weight: bold; margin-bottom:200px;">X FOLDERTITLE</a></br>`
with `X` the decorative glyph. -/
def canonLink (folderName folderTitle : Str) : Str :=
  ("<a href=\"./".data) ++ folderName ++
    ("/\" style=\"font-weight: bold; margin-bottom:200px;\">❉ ".data) ++
    folderTitle ++ ("</a></br>".data)

/-- Match a literal at the head of the input, returning the rest. -/
def expectLit (lit s : Str) : Option Str :=
  if lit.isPrefixOf s then some (s.drop lit.length) else none

/-- Match `\s+` (maximal, as greedy matching before a non-space literal
behaves), returning the rest; fails on an empty run. -/
def expectWs (s : Str) : Option Str :=
  if (s.takeWhile isJsSpace).length == 0 then none
  else some (s.dropWhile isJsSpace)

/-- Backtracking-faithful matcher for the link regex of the script at the
head of the input:

`<a\s+href="\.\/([^"]+)\/"\s+style="font-weight:\s+bold;\s+margin-bottom:200px;">❉\s+([^<]+)<\/a><\/br>/`

Returns (capture 1 = folder name, capture 2 = folder title, rest of input
after the match).  The greedy `[^"]+` followed by `\/"` forces capture 1 to
be everything up to the first `"` minus a final `/`; the greedy `\s+`
followed by `([^<]+)` takes the maximal space run unless that would leave
capture 2 empty, in which case it gives exactly one space back. -/
def tryLink (s0 : Str) : Option (Str × Str × Str) := do
  let s1 ← expectLit ("<a".data) s0
  let s2 ← expectWs s1
  let s3 ← expectLit ("href=\"./".data) s2
  let seg := s3.takeWhile (fun c => c != '"')
  guard (seg.length + 1 ≤ s3.length)
  guard (2 ≤ seg.length)
  guard (seg.getLast? = some '/')
  let folderName := seg.dropLast
  let s4 := s3.drop (seg.length + 1)
  let s5 ← expectWs s4
  let s6 ← expectLit ("style=\"font-weight:".data) s5
  let s7 ← expectWs s6
  let s8 ← expectLit ("bold;".data) s7
  let s9 ← expectWs s8
  let s10 ← expectLit ("margin-bottom:200px;\">❉".data) s9
  let t := s10.takeWhile (fun c => c != '<')
  let w := t.takeWhile isJsSpace
  guard (1 ≤ w.length)
  let folderTitle ←
    if w.length < t.length then some (t.drop w.length)
    else if 2 ≤ t.length then some (t.drop (t.length - 1))
    else none
  let rest ← expectLit ("</a></br>".data) (s10.drop t.length)
  pure (folderName, folderTitle, rest)

/-- The literal `\n---\n` separating a section heading from its body. -/
def nlSep : Str := "\n---\n".data

/-- Largest `m` with `1 ≤ m ≤ bound` such that `nlSep` occurs in `s` at
index `m` (the greedy `[^#]+` of the section regex backtracks from the
right, so the latest separator within the `#`-free run wins). -/
def lastSep (s : Str) : Nat → Option Nat
  | 0 => none
  | m + 1 =>
    if nlSep.isPrefixOf (s.drop (m + 1)) then some (m + 1) else lastSep s m

/-- Length of the lazy body `([\s\S]*?)` up to the lookahead `(?=\n###|$)`:
the number of characters before the first `\n###` (or the whole input). -/
def bodyLen : Str → Nat
  | [] => 0
  | c :: t => if ("\n###".data).isPrefixOf (c :: t) then 0 else bodyLen t + 1

/-- Backtracking-faithful matcher for the section regex of the script at the
head of the input:

`###\s+([^#]+)\n---\n([\s\S]*?)(?=\n###|$)/`

Returns (capture 1 = raw heading, capture 2 = raw body, rest of input after
the match; the lookahead is not consumed).

With the space run at its greedy maximum w, capture 1 starts at the first
non-space character and the greedy `[^#]+` puts the separator at the last
`\n---\n` of the `#`-free run (`lastSep`).  When no separator exists there,
the engine backtracks the `\s+` itself: because `[^#]` accepts whitespace,
capture 1 may start inside the space run.  A shorter space run exposes no
new separator position except the run's final character — a separator
starting at any earlier in-run position would need `-` where the run still
has whitespace — so the first (and only) retry that can succeed takes
`\s+` of length w - 2, capture 1 the single whitespace character at offset
w - 2, and the separator at offset w - 1; that needs w ≥ 3, since `\s+`
must stay nonempty. -/
def trySection (s0 : Str) : Option (Str × Str × Str) := do
  let s1 ← expectLit ("###".data) s0
  let w := (s1.takeWhile isJsSpace).length
  guard (1 ≤ w)
  let s2 := s1.drop w
  let r := s2.takeWhile (fun c => c != '#')
  match lastSep s2 r.length with
  | some m =>
    let body := s2.drop (m + nlSep.length)
    let k := bodyLen body
    pure (s2.take m, body.take k, body.drop k)
  | none =>
    guard (3 ≤ w)
    guard (nlSep.isPrefixOf (s1.drop (w - 1)))
    let body := s1.drop (w - 1 + nlSep.length)
    let k := bodyLen body
    pure ((s1.drop (w - 2)).take 1, body.take k, body.drop k)

/-- The `while ((match = existingLinksRegex.exec(readmeContent)) !== null)`
loop: leftmost match at or after the current position, resuming after the
end of each match.  Fuel decreases on every step and every step consumes at
least one character, so fuel = input length suffices. -/
def scanLinks : Nat → Str → List (Str × Str)
  | 0, _ => []
  | _ + 1, [] => []
  | fuel + 1, c :: tail =>
    match tryLink (c :: tail) with
    | some (n, t, rest) => (n, t) :: scanLinks fuel rest
    | none => scanLinks fuel tail

/-- The `exec` loop for the section regex, same discipline as `scanLinks`. -/
def scanSections : Nat → Str → List (Str × Str)
  | 0, _ => []
  | _ + 1, [] => []
  | fuel + 1, c :: tail =>
    match trySection (c :: tail) with
    | some (h, b, rest) => (h, b) :: scanSections fuel rest
    | none => scanSections fuel tail

/-- Lines 18-26 of the script: collect every link fragment of the input and
re-render it canonically from its two captures. -/
def collectLinks (content : Str) : List Str :=
  (scanLinks content.length content).map (fun p => canonLink p.1 p.2)

/-- Lines 28-33 of the script: collect every section of the input and
re-render it as `### TITLE\n---\nBODY` with both captures trimmed. -/
def collectSections (content : Str) : List Str :=
  (scanSections content.length content).map
    (fun p => ("### ".data) ++ jsTrim p.1 ++ ("\n---\n".data) ++ jsTrim p.2)

/-- One entry of `fs.readdirSync(projectDir, { withFileTypes: true })`:
its name, whether it is a directory, and the contents of its `README.md`
when that file exists (`none` models `fs.existsSync` returning false).
`path.relative(projectDir, path.join(projectDir, name))` is `name` itself
for directory-entry names, so no separate relative path is modelled. -/
structure Dirent where
  name : Str
  isDir : Bool
  readme : Option Str
  deriving DecidableEq

/-- The probe `"./" + dirName + "/"` used by the link deduplication test. -/
def dirProbe (dirName : Str) : Str := ("./".data) ++ dirName ++ ("/".data)

/-- The probe `` `### ${dirName}\n---\n${readmeContent}` `` used by the
section deduplication test (line 51), with `readmeContent` already trimmed. -/
def sectionProbe (dirName trimmed : Str) : Str :=
  ("### ".data) ++ dirName ++ ("\n---\n".data) ++ trimmed

/-- The template literal of lines 55-59: a leading newline, the heading and
separator lines, the trimmed content, then a newline and the twenty spaces
of the closing line's indentation. -/
def sectionTemplate (dirName trimmed : Str) : Str :=
  ("\n### ".data) ++ dirName ++ ("\n---\n".data) ++ trimmed ++
    ("\n                    ".data)

/-- Lines 41-44: append a canonical link for the directory unless some
already-collected link contains `./dirName/` as a substring. -/
def linkStep (links : List Str) (d : Dirent) : List Str :=
  if links.any (fun l => hasSubstr l (dirProbe d.name)) then links
  else links ++ [canonLink d.name d.name]

/-- Lines 46-62: when the directory has a `README.md`, append the section
template for its trimmed contents unless some already-collected section
contains the heading-plus-content probe as a substring. -/
def sectionStep (sections : List Str) (d : Dirent) : List Str :=
  match d.readme with
  | none => sections
  | some c =>
    if sections.any (fun s => hasSubstr s (sectionProbe d.name (jsTrim c))) then
      sections
    else sections ++ [sectionTemplate d.name (jsTrim c)]

/-- The `forEach` over directory entries (lines 35-64): non-directories are
skipped entirely, directories update the link list and the section list. -/
def processDirents : List Str → List Str → List Dirent → List Str × List Str
  | links, sections, [] => (links, sections)
  | links, sections, d :: rest =>
    if d.isDir then processDirents (linkStep links d) (sectionStep sections d) rest
    else processDirents links sections rest

/-- `folderLinks.join("\n")` / `readmeSections.join("\n")`. -/
def joinNL (xs : List Str) : Str := List.intercalate (['\n']) xs

/-- The one failure the script declares (line 15). -/
inductive UpdateError where
  | placeholderNotFound
  deriving DecidableEq

/-- The whole of `updateReadme(projectDir, readmePath)`: the readme contents
and the directory listing are the inputs, the value written back (or the
error thrown) is the output. -/
def updateReadme (readmeContent : Str) (dirents : List Dirent) :
    Except UpdateError Str :=
  let insertPosition : Int :=
    jsIndexOf readmeContent placeholder + (placeholder.length : Int)
  if insertPosition = -1 then
    Except.error UpdateError.placeholderNotFound
  else
    let folderLinks := collectLinks readmeContent
    let readmeSections := collectSections readmeContent
    let processed := processDirents folderLinks readmeSections dirents
    let updatedContent :=
      jsSlice0 readmeContent insertPosition ++
        ('\n' :: joinNL processed.1) ++ ('\n' :: joinNL processed.2)
    Except.ok updatedContent

/-- The final link list of a run. -/
def finalLinks (c : Str) (ds : List Dirent) : List Str :=
  (processDirents (collectLinks c) (collectSections c) ds).1

/-- The final section list of a run. -/
def finalSections (c : Str) (ds : List Dirent) : List Str :=
  (processDirents (collectLinks c) (collectSections c) ds).2

/-- The links component of the dirent walk on its own. -/
def foldLinks (links : List Str) : List Dirent → List Str
  | [] => links
  | d :: rest => foldLinks (if d.isDir then linkStep links d else links) rest

/-- The string written on success, `[]` on the error path. -/
def getOutput : Except UpdateError Str → Str
  | Except.ok s => s
  | Except.error _ => []

/-- Number of positions at which `needle` occurs in `hay`. -/
def countOcc (hay needle : Str) : Nat :=
  ((List.range (hay.length + 1)).filter
    (fun i => needle.isPrefixOf (hay.drop i))).length

/-! Concrete scenarios used by several claims. -/

/-- A clean starting README: a title line and the marker, nothing after it. -/
def initialReadme : Str := "# Notes\n<!-- FOLDER LINKS -->".data

/-- A subdirectory `algo` whose `README.md` holds `Hello`. -/
def direntD : Dirent := ⟨"algo".data, true, some ("Hello".data)⟩

/-- First run on the clean README with the `algo` subdirectory. -/
def run1 : Str := getOutput (updateReadme initialReadme [direntD])

/-- Second run, on the first run's output, same filesystem. -/
def run2 : Str := getOutput (updateReadme run1 [direntD])

/-- Third run, on the second run's output, same filesystem. -/
def run3 : Str := getOutput (updateReadme run2 [direntD])

/-- A subdirectory with no `README.md` of its own. -/
def direntP : Dirent := ⟨"plainDir".data, true, none⟩

/-- First run on the clean README with only the README-less subdirectory. -/
def runA : Str := getOutput (updateReadme initialReadme [direntP])

/-- Second run on `runA`'s output, same filesystem. -/
def runB : Str := getOutput (updateReadme runA [direntP])

/-- A README whose managed region already holds the same link twice. -/
def dupInput : Str :=
  ("<!-- FOLDER LINKS -->\n".data) ++ canonLink ("x".data) ("x".data) ++
    ("\n".data) ++ canonLink ("x".data) ("x".data)

/-- Subdirectory `alpha`, no nested README. -/
def dirA : Dirent := ⟨"alpha".data, true, none⟩

/-- Subdirectory `beta`, no nested README. -/
def dirB : Dirent := ⟨"beta".data, true, none⟩

/-- A README that opens with a section block and ends with the marker. -/
def c9input : Str := "### Intro\n---\nHello world\n<!-- FOLDER LINKS -->".data

/-- A README whose managed region holds a link rendered with extra spaces
between the attributes and after the glyph, and a display title that is not
the directory name. -/
def c10input : Str :=
  ("<!-- FOLDER LINKS -->\n<a  href=\"./proj/\"   style=\"font-weight:  bold;  margin-bottom:200px;\">❉   My Proj</a></br>").data

/-- The whitespace variant of the link inside `c10input`. -/
def variantLink : Str :=
  ("<a  href=\"./proj/\"   style=\"font-weight:  bold;  margin-bottom:200px;\">❉   My Proj</a></br>").data

/-! General lemmas about the embedding. -/

theorem ph_len : placeholder.length = 21 := rfl

theorem findFrom_spec (needle : Str) (hay : Str) :
    ∀ (k j : Nat), findFrom needle hay k = some j →
      k ≤ j ∧ needle.isPrefixOf (hay.drop (j - k)) = true := by
  induction hay with
  | nil =>
    intro k j h
    rw [findFrom] at h
    by_cases hp : needle.isPrefixOf ([] : Str) = true
    · rw [if_pos hp] at h
      cases h
      simpa using hp
    · rw [if_neg hp] at h
      cases h
  | cons c t ih =>
    intro k j h
    rw [findFrom] at h
    by_cases hp : needle.isPrefixOf (c :: t) = true
    · rw [if_pos hp] at h
      cases h
      simpa using hp
    · rw [if_neg hp] at h
      obtain ⟨h1, h2⟩ := ih (k + 1) j h
      refine ⟨by omega, ?_⟩
      have hjk : j - k = (j - (k + 1)) + 1 := by omega
      rw [hjk, List.drop_succ_cons]
      exact h2

theorem take_of_found (c : Str) (i : Nat)
    (h : findFrom placeholder c 0 = some i) :
    c.take (i + 21) = c.take i ++ placeholder ∧ i + 21 ≤ c.length := by
  obtain ⟨-, hpre⟩ := findFrom_spec placeholder c 0 i h
  rw [Nat.sub_zero, List.isPrefixOf_iff_prefix] at hpre
  obtain ⟨t, ht⟩ := hpre
  have hlen : c.length - i = 21 + t.length := by
    have h1 : (c.drop i).length = c.length - i := List.length_drop i c
    rw [← ht] at h1
    simpa [ph_len] using h1.symm
  have hile : i + 21 ≤ c.length := by omega
  have hsplit : c = c.take i ++ (placeholder ++ t) := by
    rw [ht, List.take_append_drop]
  have htki : (c.take i).length = i := by
    rw [List.length_take]
    omega
  refine ⟨?_, hile⟩
  conv_lhs => rw [hsplit]
  rw [List.take_append_eq_append_take, htki]
  have h21 : i + 21 - i = 21 := by omega
  rw [h21, List.take_of_length_le (by omega : (c.take i).length ≤ i + 21)]
  rw [List.take_append_eq_append_take, ph_len]
  simp [List.take_of_length_le, ph_len.le]

theorem updateReadme_found (c : Str) (ds : List Dirent) (i : Nat)
    (h : findFrom placeholder c 0 = some i) :
    updateReadme c ds =
      Except.ok (c.take i ++ placeholder ++
        ('\n' :: joinNL (finalLinks c ds)) ++
        ('\n' :: joinNL (finalSections c ds))) := by
  obtain ⟨htake, hle⟩ := take_of_found c i h
  have hJ : jsIndexOf c placeholder = (i : Int) := by
    rw [jsIndexOf, h]
  simp only [updateReadme, hJ, ph_len]
  rw [if_neg (by omega : ¬((i : Int) + ((21 : Nat) : Int) = -1))]
  simp only [jsSlice0]
  rw [if_neg (by omega : ¬((i : Int) + ((21 : Nat) : Int) < 0))]
  have ht2 : ((i : Int) + ((21 : Nat) : Int)).toNat = i + 21 := by omega
  rw [ht2, htake]
  simp [finalLinks, finalSections, List.append_assoc]

theorem collectSections_ws_heading_backtrack :
    collectSections ("###  \n---\nHello".data) = [("### \n---\nHello".data)] ∧
    collectSections ("### \n---\nHello".data) = [] := ⟨by rfl, by rfl⟩

theorem processDirents_no_dirs (ds : List Dirent) :
    ∀ (L S : List Str), (∀ d ∈ ds, d.isDir = false) →
      processDirents L S ds = (L, S) := by
  induction ds with
  | nil => intro L S _; rfl
  | cons d rest ih =>
    intro L S hall
    rw [processDirents]
    have hd : d.isDir = false := hall d (List.mem_cons_self d rest)
    rw [hd]
    simp only [Bool.false_eq_true, if_false]
    exact ih L S (fun e he => hall e (List.mem_cons_of_mem d he))

theorem findFrom_isSome_k (needle : Str) (hay : Str) :
    ∀ k k', (findFrom needle hay k).isSome = (findFrom needle hay k').isSome := by
  induction hay with
  | nil =>
    intro k k'
    rw [findFrom, findFrom]
    by_cases hp : needle.isPrefixOf ([] : Str) = true
    · rw [if_pos hp, if_pos hp]
      rfl
    · rw [if_neg hp, if_neg hp]
  | cons c t ih =>
    intro k k'
    rw [findFrom, findFrom]
    by_cases hp : needle.isPrefixOf (c :: t) = true
    · rw [if_pos hp, if_pos hp]
      rfl
    · rw [if_neg hp, if_neg hp]
      exact ih (k + 1) (k' + 1)

theorem hasSubstr_of_prefix_drop (hay : Str) :
    ∀ (j : Nat) (needle : Str), needle.isPrefixOf (hay.drop j) = true →
      hasSubstr hay needle = true := by
  induction hay with
  | nil =>
    intro j needle h
    rw [List.drop_nil] at h
    rw [hasSubstr, findFrom, if_pos (by simpa using h)]
    rfl
  | cons c t ih =>
    intro j needle h
    match j with
    | 0 =>
      rw [List.drop_zero] at h
      rw [hasSubstr, findFrom, if_pos h]
      rfl
    | j' + 1 =>
      rw [List.drop_succ_cons] at h
      have ht : hasSubstr t needle = true := ih j' needle h
      rw [hasSubstr, findFrom]
      by_cases hp : needle.isPrefixOf (c :: t) = true
      · rw [if_pos hp]; rfl
      · rw [if_neg hp]
        rw [hasSubstr] at ht
        rw [findFrom_isSome_k needle t 1 0]
        exact ht

theorem isPrefixOf_append_same (n : Str) :
    ∀ (u v : Str), (n ++ u).isPrefixOf (n ++ v) = u.isPrefixOf v := by
  induction n with
  | nil => intro u v; rfl
  | cons c t ih =>
    intro u v
    simp only [List.cons_append, List.isPrefixOf, beq_self_eq_true, Bool.true_and]
    exact ih u v

theorem canonLink_has_probe (n : Str) :
    hasSubstr (canonLink n n) (dirProbe n) = true := by
  apply hasSubstr_of_prefix_drop (canonLink n n) 9
  have h9 : (canonLink n n).drop 9 =
      ("./".data) ++ n ++
        ("/\" style=\"font-weight: bold; margin-bottom:200px;\">❉ ".data) ++
        n ++ ("</a></br>".data) := by rfl
  rw [h9, dirProbe]
  simp only [List.append_assoc]
  rw [isPrefixOf_append_same, isPrefixOf_append_same]
  rfl

theorem linkStep_any (L : List Str) (d : Dirent) :
    (linkStep L d).any (fun l => hasSubstr l (dirProbe d.name)) = true := by
  rw [linkStep]
  by_cases hc : L.any (fun l => hasSubstr l (dirProbe d.name)) = true
  · rw [if_pos hc]; exact hc
  · rw [if_neg hc]
    simp [List.any_append, canonLink_has_probe]

theorem foldLinks_any_mono (p : Str → Bool) :
    ∀ (ds : List Dirent) (L : List Str), L.any p = true →
      (foldLinks L ds).any p = true := by
  intro ds
  induction ds with
  | nil => intro L h; exact h
  | cons d rest ih =>
    intro L h
    rw [foldLinks]
    apply ih
    by_cases hd : d.isDir = true
    · rw [if_pos hd, linkStep]
      by_cases hc : L.any (fun l => hasSubstr l (dirProbe d.name)) = true
      · rw [if_pos hc]; exact h
      · rw [if_neg hc]
        simp [List.any_append, h]
    · rw [if_neg hd]; exact h

theorem foldLinks_covers :
    ∀ (ds : List Dirent) (L : List Str) (d : Dirent), d ∈ ds → d.isDir = true →
      (foldLinks L ds).any (fun l => hasSubstr l (dirProbe d.name)) = true := by
  intro ds
  induction ds with
  | nil => intro L d hd; cases hd
  | cons e rest ih =>
    intro L d hd hdir
    rcases List.mem_cons.mp hd with rfl | hmem
    · rw [foldLinks, if_pos hdir]
      exact foldLinks_any_mono _ rest _ (linkStep_any L d)
    · rw [foldLinks]
      exact ih _ d hmem hdir

theorem foldLinks_stable :
    ∀ (ds : List Dirent) (L : List Str),
      (∀ d ∈ ds, d.isDir = true →
        L.any (fun l => hasSubstr l (dirProbe d.name)) = true) →
      foldLinks L ds = L := by
  intro ds
  induction ds with
  | nil => intro L _; rfl
  | cons e rest ih =>
    intro L hall
    rw [foldLinks]
    have he : (if e.isDir then linkStep L e else L) = L := by
      by_cases hd : e.isDir = true
      · rw [if_pos hd, linkStep,
          if_pos (hall e (List.mem_cons_self e rest) hd)]
      · rw [if_neg hd]
    rw [he]
    exact ih L (fun d hd hdir => hall d (List.mem_cons_of_mem e hd) hdir)

theorem processDirents_fst :
    ∀ (ds : List Dirent) (L S : List Str),
      (processDirents L S ds).1 = foldLinks L ds := by
  intro ds
  induction ds with
  | nil => intro L S; rfl
  | cons d rest ih =>
    intro L S
    rw [processDirents, foldLinks]
    by_cases hd : d.isDir = true
    · rw [if_pos hd, if_pos hd]; exact ih _ _
    · rw [if_neg hd, if_neg hd]; exact ih _ _

theorem mem_foldLinks :
    ∀ (ds : List Dirent) (L : List Str) (l : Str), l ∈ foldLinks L ds →
      l ∈ L ∨ ∃ d, d ∈ ds ∧ d.isDir = true ∧ l = canonLink d.name d.name := by
  intro ds
  induction ds with
  | nil => intro L l h; exact Or.inl h
  | cons e rest ih =>
    intro L l h
    rw [foldLinks] at h
    rcases ih _ l h with hL | ⟨d, hd, hdir, heq⟩
    · by_cases hdb : e.isDir = true
      · rw [if_pos hdb, linkStep] at hL
        by_cases hc : L.any (fun x => hasSubstr x (dirProbe e.name)) = true
        · rw [if_pos hc] at hL; exact Or.inl hL
        · rw [if_neg hc] at hL
          rcases List.mem_append.mp hL with h1 | h2
          · exact Or.inl h1
          · exact Or.inr ⟨e, List.mem_cons_self e rest, hdb,
              List.mem_singleton.mp h2⟩
      · rw [if_neg hdb] at hL; exact Or.inl hL
    · exact Or.inr ⟨d, List.mem_cons_of_mem e hd, hdir, heq⟩

/-! Claim theorems. -/

/-- C1 (code bug evidence): when the marker is absent, the script does not
fail before the write; at a concrete marker-free README the run succeeds and
writes the first twenty characters of the input followed by two newlines,
mangling the file instead of leaving it byte-for-byte unchanged. -/
theorem missing_marker_write_attempted :
    updateReadme ("A long note file with no folder marker anywhere".data) [] =
      Except.ok ("A long note file wit\n\n".data) ∧
    ("A long note file wit\n\n".data) ≠
      ("A long note file with no folder marker anywhere".data) :=
  ⟨by rfl, by decide⟩

/-- C3: for every README text, the computed insertion index (index of the
marker plus the marker's length) is non-negative even when the marker is
absent (indexOf returns -1 and -1 + 21 = 20), so the error branch that
tests this index against -1 is unreachable for every input and the write is
always attempted. -/
theorem insertion_index_nonneg_write_always (c : Str) (ds : List Dirent) :
    0 ≤ jsIndexOf c placeholder + (placeholder.length : Int) ∧
    jsIndexOf c placeholder + (placeholder.length : Int) ≠ -1 ∧
    ∃ out, updateReadme c ds = Except.ok out := by
  have hcases : jsIndexOf c placeholder = -1 ∨
      ∃ i : Nat, jsIndexOf c placeholder = (i : Int) := by
    rw [jsIndexOf]
    cases findFrom placeholder c 0 with
    | none => exact Or.inl rfl
    | some i => exact Or.inr ⟨i, rfl⟩
  have hnn : 0 ≤ jsIndexOf c placeholder + (placeholder.length : Int) := by
    rcases hcases with h | ⟨i, h⟩ <;> rw [h, ph_len] <;> omega
  refine ⟨hnn, by omega, ?_⟩
  simp only [updateReadme]
  rw [if_neg (by omega :
    ¬(jsIndexOf c placeholder + (placeholder.length : Int) = -1))]
  exact ⟨_, rfl⟩

/-- C7: with the marker present (first occurrence at index i), the written
output is exactly: the input up to and including the marker, a newline, the
collected link fragments joined by newlines, a newline, and the collected
section fragments joined by newlines; the raw text that followed the marker
is not carried over (it reaches the output only through the collected
fragments). -/
theorem written_output_recomposition (c : Str) (ds : List Dirent) (i : Nat)
    (h : findFrom placeholder c 0 = some i) :
    updateReadme c ds =
      Except.ok (c.take i ++ placeholder ++
        ('\n' :: joinNL (finalLinks c ds)) ++
        ('\n' :: joinNL (finalSections c ds))) :=
  updateReadme_found c ds i h

/-- Witness for C7 at a concrete input with text on both sides of the
marker. -/
theorem written_output_recomposition_witness :
    findFrom placeholder ("X<!-- FOLDER LINKS -->tail".data) 0 = some 1 ∧
    updateReadme ("X<!-- FOLDER LINKS -->tail".data) [] =
      Except.ok ((("X<!-- FOLDER LINKS -->tail".data).take 1) ++ placeholder ++
        ('\n' :: joinNL (finalLinks ("X<!-- FOLDER LINKS -->tail".data) [])) ++
        ('\n' :: joinNL (finalSections ("X<!-- FOLDER LINKS -->tail".data) []))) :=
  ⟨by decide, written_output_recomposition _ [] 1 (by decide)⟩

/-- C6 counterexample: with the marker present and zero subdirectories the
written output carries TWO newlines after the marker (the hard-coded
separators around the joins of the two empty lists), not the single trailing
newline the claim states. -/
theorem no_subdir_two_newlines :
    updateReadme ("A<!-- FOLDER LINKS -->".data) [] =
      Except.ok ("A<!-- FOLDER LINKS -->\n\n".data) ∧
    ("A<!-- FOLDER LINKS -->\n\n".data) ≠ ("A<!-- FOLDER LINKS -->\n".data) :=
  ⟨by rfl, by decide⟩

/-- C6 amended: with the marker present and no directory among the entries,
the output is the input up to and including the marker, a newline, the link
fragments collected from the input text, a newline, and the section
fragments collected from the input text — hence exactly two trailing
newlines when the text has no collectable fragments, and re-emitted
fragments otherwise. -/
theorem no_subdir_output (c : Str) (ds : List Dirent) (i : Nat)
    (h : findFrom placeholder c 0 = some i)
    (hds : ∀ d ∈ ds, d.isDir = false) :
    updateReadme c ds =
      Except.ok (c.take i ++ placeholder ++
        ('\n' :: joinNL (collectLinks c)) ++
        ('\n' :: joinNL (collectSections c))) := by
  rw [updateReadme_found c ds i h]
  rw [finalLinks, finalSections,
    processDirents_no_dirs ds (collectLinks c) (collectSections c) hds]

/-- Witness for the amended C6. -/
theorem no_subdir_output_witness :
    (findFrom placeholder ("A<!-- FOLDER LINKS -->".data) 0 = some 1 ∧
      ∀ d ∈ ([] : List Dirent), d.isDir = false) ∧
    updateReadme ("A<!-- FOLDER LINKS -->".data) [] =
      Except.ok ((("A<!-- FOLDER LINKS -->".data).take 1) ++ placeholder ++
        ('\n' :: joinNL (collectLinks ("A<!-- FOLDER LINKS -->".data))) ++
        ('\n' :: joinNL (collectSections ("A<!-- FOLDER LINKS -->".data)))) :=
  ⟨⟨by decide, by simp⟩, no_subdir_output _ [] 1 (by decide) (by simp)⟩

/-- C2 counterexample: on a clean README with one subdirectory carrying a
`README.md`, the second run rewrites the section block the first run
appended (the template's leading newline and trailing indentation are
replaced by the trimmed re-rendering), so the second run's output is not
byte-identical to its input. -/
theorem second_run_differs :
    updateReadme run1 [direntD] = Except.ok run2 ∧ run2 ≠ run1 :=
  ⟨by rfl, by decide⟩

/-- C2 amended: the second run re-serializes any section appended by the
first run, so it is a no-op only when the first run appended no section;
the output is stable from the second run onward (the third run writes the
second run's output byte-identically), and when no subdirectory has its own
`README.md` the second run is already a no-op. -/
theorem second_run_stabilises :
    run3 = run2 ∧ runB = runA :=
  ⟨by decide, by decide⟩

/-- C4 counterexample: the fragment appended for a subdirectory `algo` whose
README holds `Hello` is not the bare string `### algo\n---\nHello`; it is
the template literal's value, with a leading newline and a trailing newline
plus twenty spaces of indentation. -/
theorem appended_section_is_padded :
    finalSections initialReadme [direntD] ≠ [("### algo\n---\nHello".data)] ∧
    finalSections initialReadme [direntD] =
      [sectionTemplate ("algo".data) ("Hello".data)] :=
  ⟨by decide, by rfl⟩

/-- C4 amended: the first run appends the section as the padded template
value (which contains `### algo\n---\nHello` exactly once in the output);
the second run keeps exactly one occurrence — no duplicate is appended —
though it re-renders the block in trimmed form. -/
theorem appended_section_no_duplicate :
    finalSections initialReadme [direntD] =
      [sectionTemplate ("algo".data) ("Hello".data)] ∧
    countOcc run1 ("### algo\n---\nHello".data) = 1 ∧
    finalSections run1 [direntD] = [("### algo\n---\nHello".data)] ∧
    countOcc run2 ("### algo\n---\nHello".data) = 1 :=
  ⟨by rfl, by rfl, by rfl, by rfl⟩

/-- C5 counterexample: a README whose managed region already contains the
same link fragment twice keeps both occurrences — the written output
contains two link fragments for the one directory name `x`, violating
"at most one link fragment per directory name". -/
theorem duplicate_links_survive :
    countOcc (getOutput (updateReadme dupInput []))
      (canonLink ("x".data) ("x".data)) = 2 := by rfl

/-- C5 amended: the per-run deduplication is real — after the walk every
directory of the listing has a link whose text contains `./name/`, and a
walk starting from a link list that already covers every directory appends
nothing — and on a clean two-directory tree the run appends exactly one
link per directory in enumeration order and a second run reproduces the
same link list; but link fragments already present in the input are
re-emitted as collected, so duplicates present in the input persist. -/
theorem link_dedup_and_stability :
    (∀ (ds : List Dirent) (L : List Str) (d : Dirent), d ∈ ds →
      d.isDir = true →
      (foldLinks L ds).any (fun l => hasSubstr l (dirProbe d.name)) = true) ∧
    (∀ (ds : List Dirent) (L : List Str),
      (∀ d ∈ ds, d.isDir = true →
        L.any (fun l => hasSubstr l (dirProbe d.name)) = true) →
      foldLinks L ds = L) ∧
    finalLinks initialReadme [dirA, dirB] =
      [canonLink ("alpha".data) ("alpha".data),
        canonLink ("beta".data) ("beta".data)] ∧
    finalLinks (getOutput (updateReadme initialReadme [dirA, dirB]))
        [dirA, dirB] =
      finalLinks initialReadme [dirA, dirB] :=
  ⟨foldLinks_covers, foldLinks_stable, by rfl, by rfl⟩

/-- Witness for the amended C5: the two universally quantified parts applied
to a concrete one-directory listing. -/
theorem link_dedup_and_stability_witness :
    (foldLinks [] [⟨("solo".data), true, none⟩]).any
        (fun l => hasSubstr l (dirProbe ("solo".data))) = true ∧
    foldLinks [canonLink ("solo".data) ("solo".data)]
        [⟨("solo".data), true, none⟩] =
      [canonLink ("solo".data) ("solo".data)] :=
  ⟨link_dedup_and_stability.1 [⟨("solo".data), true, none⟩] []
      ⟨("solo".data), true, none⟩ (List.mem_singleton.mpr rfl) rfl,
    link_dedup_and_stability.2.1 [⟨("solo".data), true, none⟩]
      [canonLink ("solo".data) ("solo".data)]
      (fun d hd hdir => by
        rw [List.mem_singleton] at hd
        subst hd
        decide)⟩

/-- C8: every link in the final list is either one collected from the input
text or, when newly appended for a directory entry, exactly the canonical
fragment with the directory's name in both the href and the display text. -/
theorem appended_link_canonical (c : Str) (ds : List Dirent) (l : Str)
    (h : l ∈ finalLinks c ds) :
    l ∈ collectLinks c ∨
      ∃ d, d ∈ ds ∧ d.isDir = true ∧ l = canonLink d.name d.name := by
  rw [finalLinks, processDirents_fst] at h
  exact mem_foldLinks ds (collectLinks c) l h

/-- Witness for C8 on a concrete fresh directory. -/
theorem appended_link_canonical_witness :
    (canonLink ("zeta".data) ("zeta".data) ∈
      finalLinks initialReadme [⟨("zeta".data), true, none⟩]) ∧
    (canonLink ("zeta".data) ("zeta".data) ∈ collectLinks initialReadme ∨
      ∃ d, d ∈ [(⟨("zeta".data), true, none⟩ : Dirent)] ∧ d.isDir = true ∧
        canonLink ("zeta".data) ("zeta".data) = canonLink d.name d.name) :=
  ⟨by decide, appended_link_canonical initialReadme _ _ (by decide)⟩

/-- C9: section extraction scans the whole document, not only the region
after the marker — on a README whose only section block sits before the
marker, the block (here even swallowing the marker into its lazy body,
since no later heading stops it) is extracted and re-emitted inside the
managed region after the marker. -/
theorem premarker_section_reemitted :
    updateReadme c9input [] =
      Except.ok (c9input ++ ("\n\n".data) ++ c9input) ∧
    hasSubstr ((getOutput (updateReadme c9input [])).drop c9input.length)
      ("### Intro".data) = true :=
  ⟨by rfl, by rfl⟩

/-- C10: a link rendered with extra whitespace between the attributes and
after the glyph, and with a display title differing from the directory
name, is matched by the tolerant pattern and re-rendered as the single
canonical fragment — keeping the href's directory name and the matched
title — and the whitespace variant does not survive into the output. -/
theorem variant_link_normalised :
    collectLinks c10input = [canonLink ("proj".data) ("My Proj".data)] ∧
    updateReadme c10input [] =
      Except.ok (placeholder ++ ("\n".data) ++
        canonLink ("proj".data) ("My Proj".data) ++ ("\n".data)) ∧
    hasSubstr (getOutput (updateReadme c10input [])) variantLink = false :=
  ⟨by rfl, by rfl, by rfl⟩

end UpdateReadme
